import Mathlib

/-!
Verification of the liveroll supervisor (cmd/liveroll/main.go).

The Go program is shallowly embedded: the mutable `LiveRoll` struct becomes a
Lean structure that updates pass explicitly, Go maps become association lists
with unique keys (built only through `mapInsert`/`mapErase`), external effects
(shell commands, process spawning/killing, HTTP probes, the oxy load balancer)
become either oracle inputs (`UpdateEnv`, probe traces, `Wait4` traces) or
recorded `Effect` values. Mutex-protected critical sections of the source are
modelled as atomic state transformations; the per-child exit goroutine and the
update worker are modelled as interleaved atomic steps (`Step`).
-/

namespace Liveroll

/-- Association-list lookup, mirroring Go map indexing `m[k]` (comma-ok form). -/
def mapLookup {α : Type} (k : Nat) : List (Nat × α) → Option α
  | [] => none
  | (k', v) :: rest => if k' = k then some v else mapLookup k rest

/-- Association-list deletion, mirroring Go `delete(m, k)`.  It removes every
entry with key `k`; maps built through `mapInsert` have unique keys, so this
coincides with deleting the single entry. -/
def mapErase {α : Type} (k : Nat) : List (Nat × α) → List (Nat × α)
  | [] => []
  | (k', v) :: rest => if k' = k then mapErase k rest else (k', v) :: mapErase k rest

/-- Association-list insertion, mirroring Go map assignment `m[k] = v`. -/
def mapInsert {α : Type} (k : Nat) (v : α) (m : List (Nat × α)) : List (Nat × α) :=
  (k, v) :: mapErase k m

/-- Keys of an association list. -/
def keys {α : Type} (m : List (Nat × α)) : List Nat := m.map Prod.fst

/-- ChildProcess mirrors the Go struct of the same name: the slot port, the id
the id-command printed when the child was launched, and the health URL.  The
`cmd` process handle is not part of the state; signalling it is recorded as an
`Effect`. -/
structure ChildProcess where
  port : Nat
  id : String
  healthURL : String
  deriving Repr, DecidableEq

/-- LiveRoll mirrors the Go struct of the same name.  `lb` is the server list
of the oxy round-robin load balancer (URL strings), `backendURLs` the
port-to-URL map guarded by `backendURLsMutex`, `children` the registry guarded
by `childrenMutex`.  Config fields not used by any verified property
(`interval`, `listenPort`) are omitted. -/
structure LiveRoll where
  pullCmdStr : String
  idCmdStr : String
  execCmdStr : String
  healthcheckPath : String
  childPort1 : Nat
  childPort2 : Nat
  healthTimeout : Nat
  currentID : String
  children : List (Nat × ChildProcess)
  backendURLs : List (Nat × String)
  lb : List String
  inShutdownProcess : Bool
  deriving Repr, DecidableEq

/-- Observable external actions of an update run, a reaper, or shutdown. -/
inductive Effect where
  | runPull (cmd : String)
  | runId (cmd : String)
  | spawn (port : Nat) (argv : List String)
  | kill (port : Nat)
  | term (port : Nat)
  | sigkill (port : Nat)
  deriving Repr, DecidableEq

/-- NewLiveRoll plus the flag assignments of `main`: a fresh supervisor state
with empty registry, empty backend set and empty current id. -/
def newLiveRoll (pullCmd idCmd execCmd hcPath : String) (p1 p2 timeout : Nat) : LiveRoll :=
  { pullCmdStr := pullCmd
    idCmdStr := idCmd
    execCmdStr := execCmd
    healthcheckPath := hcPath
    childPort1 := p1
    childPort2 := p2
    healthTimeout := timeout
    currentID := ""
    children := []
    backendURLs := []
    lb := []
    inShutdownProcess := false }

/-- Argument vector `runCommand`/`runCommandOutput`/`startChildProcess` hand to
the OS: the command string is passed verbatim as the third argument of
`sh -c`. -/
def shellArgv (cmdStr : String) : List String := ["sh", "-c", cmdStr]

/-- Backend URL for a child port, as formatted in `addBackend`. -/
def backendURL (port : Nat) : String := "http://localhost:" ++ Nat.repr port

/-- Oxy's `UpsertServer`: add the URL to the server list unless it is already
present. -/
def upsertServer (u : String) (lb : List String) : List String :=
  if u ∈ lb then lb else lb ++ [u]

/-- addBackend registers the child's URL in the load balancer and in the
`backendURLs` map.  `url.Parse` cannot fail on "http://localhost:<digits>",
so the early-return error branch of the source is not reachable and is not
modelled. -/
def addBackend (child : ChildProcess) (st : LiveRoll) : LiveRoll :=
  { st with
    lb := upsertServer (backendURL child.port) st.lb
    backendURLs := mapInsert child.port (backendURL child.port) st.backendURLs }

/-- removeBackendByPort: if the port has a registered URL, remove that URL from
the load balancer and delete the map entry; otherwise do nothing.  The
`RemoveServer` error is only logged in the source, so there is no error
result. -/
def removeBackendByPort (port : Nat) (st : LiveRoll) : LiveRoll :=
  match mapLookup port st.backendURLs with
  | some u =>
      { st with
        lb := st.lb.erase u
        backendURLs := mapErase port st.backendURLs }
  | none => st

/-- The slot-freeing sequence of `selectChildPort`: `killChild` (recorded as an
effect by the caller), `delete(liveRoll.children, port)`, then
`removeBackendByPort(port)`. -/
def freeSlot (port : Nat) (st : LiveRoll) : LiveRoll :=
  removeBackendByPort port { st with children := mapErase port st.children }

/-- selectChildPort, translated from the source: return a free slot if one
exists (port1 tested first); otherwise free the slot whose child's id differs
from `currentID` (port1 tested first); if both children carry `currentID`,
free port1.  The returned effects record the `killChild` calls. -/
def selectChildPort (st : LiveRoll) : Nat × LiveRoll × List Effect :=
  match mapLookup st.childPort1 st.children, mapLookup st.childPort2 st.children with
  | none, _ => (st.childPort1, st, [])
  | some _, none => (st.childPort2, st, [])
  | some c1, some c2 =>
      if c1.id ≠ st.currentID then
        (st.childPort1, freeSlot st.childPort1 st, [Effect.kill st.childPort1])
      else if c2.id ≠ st.currentID then
        (st.childPort2, freeSlot st.childPort2 st, [Effect.kill st.childPort2])
      else
        (st.childPort1, freeSlot st.childPort1 st, [Effect.kill st.childPort1])

/-- Whitespace as recognized by Go's `strings.TrimSpace` (restricted to the
ASCII space characters; the Unicode-only space code points it also strips do
not occur in the verified properties). -/
def isSpaceChar (c : Char) : Bool :=
  c = ' ' ∨ c = '\t' ∨ c = '\n' ∨ c = '\r' ∨ c = '\x0b' ∨ c = '\x0c'

/-- Go's `strings.TrimSpace`: drop leading and trailing whitespace. -/
def trimSpace (s : String) : String :=
  String.mk ((((s.data.dropWhile isSpaceChar).reverse).dropWhile isSpaceChar).reverse)

/-- Go's `strings.ReplaceAll(s, old, new)` on character lists: scan left to
right, replacing each non-overlapping occurrence of `pat`.  `fuel` bounds the
recursion (each step consumes at least one character, so `s.length` fuel is
enough whenever `pat` is non-empty; both patterns used by the program are
non-empty literals). -/
def replaceAllAux (pat rep : List Char) : Nat → List Char → List Char
  | 0, s => s
  | fuel + 1, s =>
    match s with
    | [] => []
    | c :: rest =>
        if pat.isPrefixOf (c :: rest) then
          rep ++ replaceAllAux pat rep fuel ((c :: rest).drop pat.length)
        else
          c :: replaceAllAux pat rep fuel rest

/-- String-level wrapper for `replaceAllAux`. -/
def replaceAll (s pat rep : String) : String :=
  String.mk (replaceAllAux pat.data rep.data s.data.length s.data)

/-- Template variable for the slot port. -/
def portTemplate : String := "<<PORT>>"

/-- Template variable for the healthcheck path. -/
def healthTemplate : String := "<<HEALTHCHECK>>"

/-- Specification-side view of substitution, part 1: the chunks of `s` between
consecutive non-overlapping occurrences of `pat`, scanning left to right
(`fuel` bounds the recursion exactly as in `replaceAllAux`). -/
def splitOnAux (pat : List Char) : Nat → List Char → List (List Char)
  | 0, s => [s]
  | fuel + 1, s =>
    match s with
    | [] => [[]]
    | c :: rest =>
        if pat.isPrefixOf (c :: rest) then
          [] :: splitOnAux pat fuel ((c :: rest).drop pat.length)
        else
          match splitOnAux pat fuel rest with
          | [] => [[c]]
          | chunk :: more => (c :: chunk) :: more

/-- Specification-side view of substitution, part 2, following the spec's
words "substring replacement, all occurrences": split `s` on every occurrence
of `pat` and join the chunks with `rep`.  To be compared with the source-side
`replaceAll`. -/
def substituteSpec (s pat rep : String) : String :=
  String.mk (List.intercalate rep.data (splitOnAux pat.data s.data.length s.data))

/-- startChildProcess: substitute the template variables in `execCmdStr`
(`<<PORT>>` first, then `<<HEALTHCHECK>>`), build the child record with its
health URL, and return the argv handed to the OS (`sh -c` on the substituted
string).  The exit-monitor goroutine it also starts is modelled by `reapChild`
as a separate step. -/
def startChildProcess (st : LiveRoll) (port : Nat) (newID : String) :
    ChildProcess × List String :=
  let cmdStr := replaceAll (replaceAll st.execCmdStr portTemplate (Nat.repr port))
    healthTemplate st.healthcheckPath
  ({ port := port
     id := newID
     healthURL := "http://localhost:" ++ Nat.repr port ++ st.healthcheckPath },
   shellArgv cmdStr)

/-- The body of the goroutine `startChildProcess` spawns, run when the child's
`cmd.Wait()` returns: delete the child from the registry, then remove its
backend.  The second component lists the `forced` flags of the update triggers
this goroutine enqueues on `updateChan`; the source enqueues none. -/
def reapChild (port : Nat) (st : LiveRoll) : LiveRoll × List Bool :=
  (removeBackendByPort port { st with children := mapErase port st.children }, [])

/-- Outcome of one `http.Get` against the child's health URL. -/
inductive ProbeResult where
  | transportError
  | response (status : Nat)
  deriving Repr, DecidableEq

/-- True when the probe produced an HTTP response (whose body the source then
reads to the end and closes). -/
def ProbeResult.isResp : ProbeResult → Bool
  | ProbeResult.transportError => false
  | ProbeResult.response _ => true

/-- waitForHealth's probe loop.  Iteration `i` of the source runs `http.Get`
at roughly `i` seconds after the start (the loop sleeps one second between
probes), and the loop condition `time.Now().Before(deadline)` admits exactly
the iterations with `i < healthTimeout` (in whole seconds), which is the
`fuel` argument here.  Returns the index of the first probe answering status
200 (`none` on deadline expiry = the "healthcheck timed out" error) together
with the indices of the probes whose response bodies were drained. -/
def waitForHealthRun (probe : Nat → ProbeResult) : Nat → Nat → Option Nat × List Nat
  | 0, _ => (none, [])
  | fuel + 1, i =>
    match probe i with
    | ProbeResult.transportError => waitForHealthRun probe fuel (i + 1)
    | ProbeResult.response code =>
        if code = 200 then (some i, [i])
        else
          let r := waitForHealthRun probe fuel (i + 1)
          (r.1, i :: r.2)

/-- waitForHealth: result of the probe loop started at index 0. -/
def waitForHealth (timeout : Nat) (probe : Nat → ProbeResult) : Option Nat :=
  (waitForHealthRun probe timeout 0).1

/-- One iteration of the `removeStaleChildren` range loop: a child on a port
other than the fresh one whose id differs from the new id is killed, deleted
from the registry and removed from the backend set. -/
def staleStep (newID : String) (newPort : Nat) (acc : LiveRoll × List Effect)
    (entry : Nat × ChildProcess) : LiveRoll × List Effect :=
  if entry.1 ≠ newPort ∧ entry.2.id ≠ newID then
    (removeBackendByPort entry.2.port
       { acc.1 with children := mapErase entry.1 acc.1.children },
     acc.2 ++ [Effect.kill entry.1])
  else acc

/-- removeStaleChildren: iterate over the registry entries, retiring every
child whose port is not `newPort` and whose id is not `newID`. -/
def removeStaleChildren (newID : String) (newPort : Nat) (st : LiveRoll) :
    LiveRoll × List Effect :=
  st.children.foldl (staleStep newID newPort) (st, [])

/-- Errors an update run can return, named after the messages in the source. -/
inductive UpdateError where
  | pullFailed
  | idFailed
  | noSlot
  | spawnFailed
  | healthFailed
  deriving Repr, DecidableEq

/-- Oracle for the external world one update run interacts with: whether the
pull command exits zero, what the id command prints (none = non-zero exit),
whether `cmd.Start()` succeeds, and the health-probe trace of the new child. -/
structure UpdateEnv where
  pullOk : Bool
  idOutput : Option String
  spawnOk : Bool
  probes : Nat → ProbeResult

/-- updateProcess, translated step by step from the source: pull, id,
no-op short-circuit, slot selection, spawn, health probe, registration,
id publication, stale retirement.  Returns the post-run state, the recorded
effects and the error (`none` = the run returned nil). -/
def updateProcess (env : UpdateEnv) (forced : Bool) (st : LiveRoll) :
    LiveRoll × List Effect × Option UpdateError :=
  if env.pullOk = false then
    (st, [Effect.runPull st.pullCmdStr], some UpdateError.pullFailed)
  else
    match env.idOutput with
    | none =>
        (st, [Effect.runPull st.pullCmdStr, Effect.runId st.idCmdStr],
         some UpdateError.idFailed)
    | some out =>
        let newID := trimSpace out
        if forced = false ∧ newID = st.currentID then
          (st, [Effect.runPull st.pullCmdStr, Effect.runId st.idCmdStr], none)
        else
          let sel := selectChildPort st
          let portToUse := sel.1
          let st1 := sel.2.1
          let effs0 := Effect.runPull st.pullCmdStr :: Effect.runId st.idCmdStr :: sel.2.2
          if portToUse = 0 then
            (st1, effs0, some UpdateError.noSlot)
          else if env.spawnOk = false then
            (st1, effs0, some UpdateError.spawnFailed)
          else
            let sc := startChildProcess st1 portToUse newID
            let effs1 := effs0 ++ [Effect.spawn portToUse sc.2]
            match waitForHealth st.healthTimeout env.probes with
            | none =>
                (st1, effs1 ++ [Effect.kill portToUse], some UpdateError.healthFailed)
            | some _ =>
                let st2 := { st1 with children := mapInsert portToUse sc.1 st1.children }
                let st3 := addBackend sc.1 st2
                let st4 := { st3 with currentID := newID }
                let rs := removeStaleChildren newID portToUse st4
                (rs.1, effs1 ++ rs.2, none)

/-- triggerUpdate: the list of values sent on `updateChan` — empty while the
shutdown flag is set, otherwise the single `forced` flag. -/
def triggerUpdate (forced : Bool) (st : LiveRoll) : List Bool :=
  if st.inShutdownProcess then [] else [forced]

/-- The `waitAllChildren` closure of `shutdown`: up to 300 non-blocking
`syscall.Wait4(-1, WNOHANG)` calls, 100 ms apart.  `wait4 i` is the pid the
i-th call returns; with WNOHANG it returns 0 while unexited children remain
and -1 (ECHILD) when there are none, and the source treats any `pid <= 0` as
"all child processes exited", returning true.  (Wait4 reports an error only
together with pid -1, so the `err != nil` branch after the `pid <= 0` check
is unreachable and not modelled.)  Returns the verdict and the index after
the last Wait4 call made. -/
def waitAllChildrenAux (wait4 : Nat → Int) : Nat → Nat → Bool × Nat
  | 0, i => (false, i)
  | fuel + 1, i =>
      if wait4 i ≤ 0 then (true, i + 1)
      else waitAllChildrenAux wait4 fuel (i + 1)

/-- shutdown: set the draining flag, SIGTERM every registered child, run the
wait loop, and if it reports a timeout SIGKILL every registered child and run
the wait loop again.  (`os.Exit(0)` follows in the source.) -/
def shutdown (wait4 : Nat → Int) (st : LiveRoll) : LiveRoll × List Effect :=
  let st' := { st with inShutdownProcess := true }
  let termEffs := st.children.map (fun e => Effect.term e.1)
  let w1 := waitAllChildrenAux wait4 300 0
  if w1.1 then (st', termEffs)
  else
    let killEffs := st.children.map (fun e => Effect.sigkill e.1)
    (st', termEffs ++ killEffs)

/-- Interleaving of the serialized update worker and the per-child exit
goroutines: each step is one mutex-protected critical region or one whole
serialized update run. -/
inductive Step where
  | trigger (env : UpdateEnv) (forced : Bool)
  | reap (port : Nat)

/-- Apply one step to the supervisor state. -/
def applyStep (st : LiveRoll) : Step → LiveRoll
  | Step.trigger env forced => (updateProcess env forced st).1
  | Step.reap port => (reapChild port st).1

/-- Apply a finite sequence of steps. -/
def applySteps (st : LiveRoll) (steps : List Step) : LiveRoll :=
  steps.foldl applyStep st

/-- Well-formedness of a registry with respect to the two reserved slot ports:
every key is one of the two ports, and keys are unique (as in a Go map). -/
def ChildrenOK (p1 p2 : Nat) (m : List (Nat × ChildProcess)) : Prop :=
  (∀ p ∈ keys m, p = p1 ∨ p = p2) ∧ (keys m).Nodup

/-- Registry well-formedness of a supervisor state. -/
def RegistryWF (st : LiveRoll) : Prop :=
  ChildrenOK st.childPort1 st.childPort2 st.children

/-- A concrete freshly-started supervisor, used to instantiate theorems. -/
def stInit : LiveRoll :=
  newLiveRoll "git pull" "cat VERSION" "./server -p <<PORT>>" "/heathz" 9101 9102 3

/-- A concrete environment: pull succeeds, the id command prints "v1" with a
trailing newline, spawn succeeds, every probe answers 200. -/
def envV1 : UpdateEnv :=
  { pullOk := true
    idOutput := some "v1\n"
    spawnOk := true
    probes := fun _ => ProbeResult.response 200 }

/-- The supervisor after the initial forced update: one v1 child on port 9101. -/
def stOne : LiveRoll := (updateProcess envV1 true stInit).1

/-- The supervisor after a further forced same-id update: v1 children on both
slots (the source's `removeStaleChildren` keeps the old child because its id
equals the new id). -/
def stBothSlots : LiveRoll := (updateProcess envV1 true stOne).1

/-- A concrete environment whose new child never becomes healthy: the id
command prints "v2", every probe answers 500. -/
def envV2Unhealthy : UpdateEnv :=
  { pullOk := true
    idOutput := some "v2\n"
    spawnOk := true
    probes := fun _ => ProbeResult.response 500 }

/-- A `Wait4` trace of a child that never exits: every non-blocking wait
returns pid 0 (children exist, none has changed state). -/
def wait4Stuck : Nat → Int := fun _ => 0

/-- A concrete probe trace: transport error at index 0, status 200 at index 1,
transport errors afterwards. -/
def probeW : Nat → ProbeResult :=
  fun i => if i = 1 then ProbeResult.response 200 else ProbeResult.transportError

/-- Recognizer for pull-command executions in an effect trace. -/
def Effect.isPull : Effect → Bool
  | Effect.runPull _ => true
  | _ => false

/-- Recognizer for child spawns in an effect trace. -/
def Effect.isSpawn : Effect → Bool
  | Effect.spawn _ _ => true
  | _ => false

/-! ### Helper lemmas about the map operations -/

theorem mapLookup_mapErase_self {α : Type} (k : Nat) (m : List (Nat × α)) :
    mapLookup k (mapErase k m) = none := by
  induction m with
  | nil => rfl
  | cons e rest ih =>
      obtain ⟨k', v⟩ := e
      by_cases h : k' = k
      · simp [mapErase, h, ih]
      · simp [mapErase, mapLookup, h, ih]

theorem mem_keys_mapErase {α : Type} {p k : Nat} {m : List (Nat × α)}
    (h : p ∈ keys (mapErase k m)) : p ∈ keys m := by
  induction m with
  | nil => simp [mapErase, keys] at h
  | cons e rest ih =>
      obtain ⟨k', v⟩ := e
      by_cases hk : k' = k
      · simp only [mapErase, hk, if_pos rfl] at h
        exact List.mem_cons_of_mem _ (ih h)
      · simp only [mapErase, if_neg hk, keys, List.map_cons, List.mem_cons] at h ⊢
        rcases h with h | h
        · exact Or.inl h
        · exact Or.inr (ih h)

theorem not_mem_keys_mapErase_self {α : Type} (k : Nat) (m : List (Nat × α)) :
    k ∉ keys (mapErase k m) := by
  induction m with
  | nil => simp [mapErase, keys]
  | cons e rest ih =>
      obtain ⟨k', v⟩ := e
      by_cases hk : k' = k
      · simpa [mapErase, hk] using ih
      · simp only [mapErase, if_neg hk, keys, List.map_cons, List.mem_cons]
        rintro (h | h)
        · exact hk h.symm
        · exact ih h

theorem nodup_keys_mapErase {α : Type} {k : Nat} {m : List (Nat × α)}
    (h : (keys m).Nodup) : (keys (mapErase k m)).Nodup := by
  induction m with
  | nil => simpa [mapErase] using h
  | cons e rest ih =>
      obtain ⟨k', v⟩ := e
      simp only [keys, List.map_cons, List.nodup_cons] at h
      by_cases hk : k' = k
      · simpa [mapErase, hk] using ih h.2
      · simp only [mapErase, if_neg hk, keys, List.map_cons, List.nodup_cons]
        exact ⟨fun hc => h.1 (mem_keys_mapErase hc), ih h.2⟩

theorem childrenOK_mapErase {p1 p2 k : Nat} {m : List (Nat × ChildProcess)}
    (h : ChildrenOK p1 p2 m) : ChildrenOK p1 p2 (mapErase k m) :=
  ⟨fun p hp => h.1 p (mem_keys_mapErase hp), nodup_keys_mapErase h.2⟩

theorem childrenOK_mapInsert {p1 p2 k : Nat} {v : ChildProcess}
    {m : List (Nat × ChildProcess)} (hk : k = p1 ∨ k = p2)
    (h : ChildrenOK p1 p2 m) : ChildrenOK p1 p2 (mapInsert k v m) := by
  constructor
  · intro p hp
    simp only [mapInsert, keys, List.map_cons, List.mem_cons] at hp
    rcases hp with hp | hp
    · exact hp ▸ hk
    · exact (childrenOK_mapErase h).1 p hp
  · simp only [mapInsert, keys, List.map_cons, List.nodup_cons]
    exact ⟨not_mem_keys_mapErase_self k m, nodup_keys_mapErase h.2⟩

theorem childrenOK_length_le_two {p1 p2 : Nat} {m : List (Nat × ChildProcess)}
    (h : ChildrenOK p1 p2 m) : m.length ≤ 2 := by
  have hsub : keys m ⊆ [p1, p2] := by
    intro p hp
    rcases h.1 p hp with hp1 | hp1 <;> simp [hp1]
  have := (h.2.subperm hsub).length_le
  simpa [keys] using this

/-! ### Component lemmas: which state fields each operation touches -/

theorem removeBackendByPort_fields (port : Nat) (st : LiveRoll) :
    (removeBackendByPort port st).children = st.children ∧
    (removeBackendByPort port st).childPort1 = st.childPort1 ∧
    (removeBackendByPort port st).childPort2 = st.childPort2 ∧
    (removeBackendByPort port st).currentID = st.currentID ∧
    (removeBackendByPort port st).pullCmdStr = st.pullCmdStr ∧
    (removeBackendByPort port st).idCmdStr = st.idCmdStr := by
  unfold removeBackendByPort
  cases mapLookup port st.backendURLs <;> simp

theorem addBackend_fields (child : ChildProcess) (st : LiveRoll) :
    (addBackend child st).children = st.children ∧
    (addBackend child st).childPort1 = st.childPort1 ∧
    (addBackend child st).childPort2 = st.childPort2 ∧
    (addBackend child st).currentID = st.currentID := by
  unfold addBackend
  simp

theorem freeSlot_fields (port : Nat) (st : LiveRoll) :
    (freeSlot port st).children = mapErase port st.children ∧
    (freeSlot port st).childPort1 = st.childPort1 ∧
    (freeSlot port st).childPort2 = st.childPort2 ∧
    (freeSlot port st).currentID = st.currentID := by
  unfold freeSlot
  have h := removeBackendByPort_fields port { st with children := mapErase port st.children }
  exact ⟨h.1, h.2.1, h.2.2.1, h.2.2.2.1⟩

/-- The port returned by slot selection is always one of the two slot ports. -/
theorem selectChildPort_port_cases (st : LiveRoll) :
    (selectChildPort st).1 = st.childPort1 ∨ (selectChildPort st).1 = st.childPort2 := by
  unfold selectChildPort
  cases h1 : mapLookup st.childPort1 st.children with
  | none => simp
  | some c1 =>
      cases h2 : mapLookup st.childPort2 st.children with
      | none => simp
      | some c2 =>
          by_cases hid1 : c1.id ≠ st.currentID

          · simp [hid1]
          · by_cases hid2 : c2.id ≠ st.currentID <;> simp [hid1, hid2]

/-- The state slot selection returns is the input state, or the input state
with one of its two slots freed. -/
theorem selectChildPort_state_cases (st : LiveRoll) :
    (selectChildPort st).2.1 = st ∨
    (selectChildPort st).2.1 = freeSlot st.childPort1 st ∨
    (selectChildPort st).2.1 = freeSlot st.childPort2 st := by
  unfold selectChildPort
  cases h1 : mapLookup st.childPort1 st.children with
  | none => simp
  | some c1 =>
      cases h2 : mapLookup st.childPort2 st.children with
      | none => simp
      | some c2 =>
          by_cases hid1 : c1.id ≠ st.currentID
          · simp [hid1]
          · by_cases hid2 : c2.id ≠ st.currentID <;> simp [hid1, hid2]

theorem selectChildPort_fields (st : LiveRoll) :
    (selectChildPort st).2.1.childPort1 = st.childPort1 ∧
    (selectChildPort st).2.1.childPort2 = st.childPort2 ∧
    (selectChildPort st).2.1.currentID = st.currentID := by
  rcases selectChildPort_state_cases st with h | h | h <;> rw [h]
  · exact ⟨rfl, rfl, rfl⟩
  · have hf := freeSlot_fields st.childPort1 st
    exact ⟨hf.2.1, hf.2.2.1, hf.2.2.2⟩
  · have hf := freeSlot_fields st.childPort2 st
    exact ⟨hf.2.1, hf.2.2.1, hf.2.2.2⟩

theorem selectChildPort_wf {st : LiveRoll} (h : RegistryWF st) :
    RegistryWF (selectChildPort st).2.1 := by
  have hfld := selectChildPort_fields st
  rcases selectChildPort_state_cases st with hc | hc | hc <;>
    unfold RegistryWF <;> rw [hc]
  · exact h
  · have hf := freeSlot_fields st.childPort1 st
    rw [hf.1, hf.2.1, hf.2.2.1]
    exact childrenOK_mapErase h
  · have hf := freeSlot_fields st.childPort2 st
    rw [hf.1, hf.2.1, hf.2.2.1]
    exact childrenOK_mapErase h

theorem staleStep_fields (newID : String) (newPort : Nat)
    (acc : LiveRoll × List Effect) (entry : Nat × ChildProcess) :
    (staleStep newID newPort acc entry).1.childPort1 = acc.1.childPort1 ∧
    (staleStep newID newPort acc entry).1.childPort2 = acc.1.childPort2 ∧
    (staleStep newID newPort acc entry).1.currentID = acc.1.currentID := by
  unfold staleStep
  by_cases h : entry.1 ≠ newPort ∧ entry.2.id ≠ newID
  · simp only [if_pos h]
    have hr := removeBackendByPort_fields entry.2.port
      { acc.1 with children := mapErase entry.1 acc.1.children }
    exact ⟨hr.2.1, hr.2.2.1, hr.2.2.2.1⟩
  · simp [if_neg h]

theorem staleStep_wf {p1 p2 : Nat} {newID : String} {newPort : Nat}
    {acc : LiveRoll × List Effect} (entry : Nat × ChildProcess)
    (h : ChildrenOK p1 p2 acc.1.children) :
    ChildrenOK p1 p2 (staleStep newID newPort acc entry).1.children := by
  unfold staleStep
  by_cases hc : entry.1 ≠ newPort ∧ entry.2.id ≠ newID
  · simp only [if_pos hc]
    have hr := removeBackendByPort_fields entry.2.port
      { acc.1 with children := mapErase entry.1 acc.1.children }
    rw [hr.1]
    exact childrenOK_mapErase h
  · simpa [if_neg hc] using h

theorem foldl_staleStep_invariant {p1 p2 : Nat} (newID : String) (newPort : Nat)
    (l : List (Nat × ChildProcess)) (acc : LiveRoll × List Effect)
    (h : ChildrenOK p1 p2 acc.1.children)
    (hp1 : acc.1.childPort1 = p1) (hp2 : acc.1.childPort2 = p2) :
    ChildrenOK p1 p2 (l.foldl (staleStep newID newPort) acc).1.children ∧
    (l.foldl (staleStep newID newPort) acc).1.childPort1 = p1 ∧
    (l.foldl (staleStep newID newPort) acc).1.childPort2 = p2 ∧
    (l.foldl (staleStep newID newPort) acc).1.currentID = acc.1.currentID := by
  induction l generalizing acc with
  | nil => exact ⟨h, hp1, hp2, rfl⟩
  | cons e rest ih =>
      have hf := staleStep_fields newID newPort acc e
      have := ih (staleStep newID newPort acc e) (staleStep_wf e h)
        (hf.1.trans hp1) (hf.2.1.trans hp2)
      exact ⟨this.1, this.2.1, this.2.2.1, this.2.2.2.trans hf.2.2⟩

theorem removeStaleChildren_preserves {st : LiveRoll} (newID : String) (newPort : Nat)
    (h : RegistryWF st) :
    RegistryWF (removeStaleChildren newID newPort st).1 ∧
    (removeStaleChildren newID newPort st).1.childPort1 = st.childPort1 ∧
    (removeStaleChildren newID newPort st).1.childPort2 = st.childPort2 ∧
    (removeStaleChildren newID newPort st).1.currentID = st.currentID := by
  unfold removeStaleChildren
  have := @foldl_staleStep_invariant st.childPort1 st.childPort2
    newID newPort st.children (st, []) h rfl rfl
  refine ⟨?_, this.2.1, this.2.2.1, this.2.2.2⟩
  unfold RegistryWF
  rw [this.2.1, this.2.2.1]
  exact this.1

theorem updateProcess_preserves (env : UpdateEnv) (forced : Bool) {st : LiveRoll}
    (h : RegistryWF st) :
    RegistryWF (updateProcess env forced st).1 ∧
    (updateProcess env forced st).1.childPort1 = st.childPort1 ∧
    (updateProcess env forced st).1.childPort2 = st.childPort2 := by
  have hsel := selectChildPort_wf h
  have hself := selectChildPort_fields st
  have hport := selectChildPort_port_cases st
  unfold updateProcess
  by_cases hpull : env.pullOk = false
  · simp only [if_pos hpull]
    exact ⟨h, by trivial, by trivial⟩
  simp only [if_neg hpull]
  cases hid : env.idOutput with
  | none => exact ⟨h, rfl, rfl⟩
  | some out =>
      simp only
      by_cases hnoop : forced = false ∧ trimSpace out = st.currentID
      · simp only [if_pos hnoop]
        exact ⟨h, by trivial, by trivial⟩
      simp only [if_neg hnoop]
      by_cases hz : (selectChildPort st).1 = 0
      · simp only [if_pos hz]
        exact ⟨hsel, hself.1, hself.2.1⟩
      simp only [if_neg hz]
      by_cases hsp : env.spawnOk = false
      · simp only [if_pos hsp]
        exact ⟨hsel, hself.1, hself.2.1⟩
      simp only [if_neg hsp]
      cases hw : waitForHealth st.healthTimeout env.probes with
      | none => exact ⟨hsel, hself.1, hself.2.1⟩
      | some k =>
          simp only
          set sel := selectChildPort st with hselEq
          set sc := startChildProcess sel.2.1 sel.1 (trimSpace out) with hscEq
          have hins : ChildrenOK st.childPort1 st.childPort2
              (mapInsert sel.1 sc.1 sel.2.1.children) := by
            apply childrenOK_mapInsert hport
            have : ChildrenOK sel.2.1.childPort1 sel.2.1.childPort2 sel.2.1.children := hsel
            rwa [hself.1, hself.2.1] at this
          set st2 : LiveRoll := { sel.2.1 with children := mapInsert sel.1 sc.1 sel.2.1.children }
            with hst2
          have hst2wf : ChildrenOK st2.childPort1 st2.childPort2 st2.children := by
            have e1 : st2.childPort1 = st.childPort1 := hself.1
            have e2 : st2.childPort2 = st.childPort2 := hself.2.1
            rw [e1, e2]
            exact hins
          have hab := addBackend_fields sc.1 st2
          set st4 : LiveRoll := { addBackend sc.1 st2 with currentID := trimSpace out } with hst4
          have hst4wf : RegistryWF st4 := by
            unfold RegistryWF
            have h1 : st4.children = st2.children := hab.1
            have h2 : st4.childPort1 = st2.childPort1 := hab.2.1
            have h3 : st4.childPort2 = st2.childPort2 := hab.2.2.1
            rw [h1, h2, h3]
            exact hst2wf
          have hrs := @removeStaleChildren_preserves st4 (trimSpace out) sel.1 hst4wf
          have hp1 : st4.childPort1 = st.childPort1 := hab.2.1.trans hself.1
          have hp2 : st4.childPort2 = st.childPort2 := hab.2.2.1.trans hself.2.1
          exact ⟨hrs.1, hrs.2.1.trans hp1, hrs.2.2.1.trans hp2⟩

theorem applyStep_wf {st : LiveRoll} (s : Step) (h : RegistryWF st) :
    RegistryWF (applyStep st s) := by
  cases s with
  | trigger env forced => exact (updateProcess_preserves env forced h).1
  | reap port =>
      unfold applyStep reapChild RegistryWF
      have hr := removeBackendByPort_fields port { st with children := mapErase port st.children }
      rw [hr.1, hr.2.1, hr.2.2.1]
      exact childrenOK_mapErase h

theorem applySteps_wf {st : LiveRoll} (steps : List Step) (h : RegistryWF st) :
    RegistryWF (applySteps st steps) := by
  induction steps generalizing st with
  | nil => exact h
  | cons s rest ih => exact ih (applyStep_wf s h)

theorem foldl_staleStep_currentID (newID : String) (newPort : Nat)
    (l : List (Nat × ChildProcess)) (acc : LiveRoll × List Effect) :
    (l.foldl (staleStep newID newPort) acc).1.currentID = acc.1.currentID := by
  induction l generalizing acc with
  | nil => rfl
  | cons e rest ih =>
      exact (ih (staleStep newID newPort acc e)).trans
        (staleStep_fields newID newPort acc e).2.2

theorem removeStaleChildren_currentID (newID : String) (newPort : Nat) (st : LiveRoll) :
    (removeStaleChildren newID newPort st).1.currentID = st.currentID :=
  foldl_staleStep_currentID newID newPort st.children (st, [])

theorem selectChildPort_free_state {st : LiveRoll}
    (h : mapLookup st.childPort1 st.children = none ∨
         mapLookup st.childPort2 st.children = none) :
    (selectChildPort st).2.1 = st := by
  unfold selectChildPort
  cases h1 : mapLookup st.childPort1 st.children with
  | none => simp
  | some c1 =>
      cases h2 : mapLookup st.childPort2 st.children with
      | none => simp
      | some c2 => rcases h with h | h <;> simp_all

theorem updateProcess_noop_eq {env : UpdateEnv} {st : LiveRoll} {out : String}
    (hpull : env.pullOk = true) (hid : env.idOutput = some out)
    (heq : trimSpace out = st.currentID) :
    updateProcess env false st =
      (st, [Effect.runPull st.pullCmdStr, Effect.runId st.idCmdStr], none) := by
  unfold updateProcess
  rw [hid]
  simp [hpull, heq]

theorem updateProcess_healthFail_run {env : UpdateEnv} {forced : Bool} {st : LiveRoll}
    {out : String}
    (hpull : env.pullOk = true) (hid : env.idOutput = some out)
    (hnoop : ¬(forced = false ∧ trimSpace out = st.currentID))
    (hz : ¬(selectChildPort st).1 = 0) (hsp : env.spawnOk = true)
    (hw : waitForHealth st.healthTimeout env.probes = none) :
    updateProcess env forced st =
      ((selectChildPort st).2.1,
       (Effect.runPull st.pullCmdStr :: Effect.runId st.idCmdStr :: (selectChildPort st).2.2) ++
         [Effect.spawn (selectChildPort st).1
            (startChildProcess (selectChildPort st).2.1 (selectChildPort st).1
              (trimSpace out)).2] ++
         [Effect.kill (selectChildPort st).1],
       some UpdateError.healthFailed) := by
  unfold updateProcess
  rw [hid]
  simp [hpull, hnoop, hz, hsp, hw]

theorem updateProcess_ok_currentID {env : UpdateEnv} {forced : Bool} {st : LiveRoll}
    {out : String}
    (hid : env.idOutput = some out)
    (hok : (updateProcess env forced st).2.2 = none) :
    (updateProcess env forced st).1.currentID = trimSpace out := by
  unfold updateProcess at hok ⊢
  by_cases hpull : env.pullOk = false
  · rw [if_pos hpull] at hok
    simp at hok
  rw [if_neg hpull] at hok ⊢
  rw [hid] at hok ⊢
  simp only at hok ⊢
  by_cases hnoop : forced = false ∧ trimSpace out = st.currentID
  · rw [if_pos hnoop] at hok ⊢
    exact hnoop.2.symm
  rw [if_neg hnoop] at hok ⊢
  by_cases hz : (selectChildPort st).1 = 0
  · rw [if_pos hz] at hok
    simp at hok
  rw [if_neg hz] at hok ⊢
  by_cases hsp : env.spawnOk = false
  · rw [if_pos hsp] at hok
    simp at hok
  rw [if_neg hsp] at hok ⊢
  cases hw : waitForHealth st.healthTimeout env.probes with
  | none =>
      rw [hw] at hok
      simp at hok
  | some k => exact removeStaleChildren_currentID _ _ _

/-! ### Substitution: the source's scan equals the split-and-join reading -/

theorem splitOnAux_ne_nil (pat : List Char) (fuel : Nat) (s : List Char) :
    splitOnAux pat fuel s ≠ [] := by
  cases fuel with
  | zero => simp [splitOnAux]
  | succ n =>
      cases s with
      | nil => simp [splitOnAux]
      | cons c rest =>
          simp only [splitOnAux]
          by_cases hpre : pat.isPrefixOf (c :: rest)
          · simp [hpre]
          · simp only [if_neg hpre]
            cases splitOnAux pat n rest <;> simp

theorem intercalate_cons_head {α : Type} (sep a : List α) (c : α) (l : List (List α)) :
    List.intercalate sep ((c :: a) :: l) = c :: List.intercalate sep (a :: l) := by
  cases l with
  | nil => simp [List.intercalate]
  | cons b m => simp [List.intercalate]

theorem intercalate_nil_head {α : Type} (sep b : List α) (m : List (List α)) :
    List.intercalate sep ([] :: b :: m) = sep ++ List.intercalate sep (b :: m) := by
  simp [List.intercalate]

theorem replaceAllAux_eq_split (pat rep : List Char) (hpat : pat ≠ []) :
    ∀ fuel s, s.length ≤ fuel →
      replaceAllAux pat rep fuel s = List.intercalate rep (splitOnAux pat fuel s) := by
  intro fuel
  induction fuel with
  | zero =>
      intro s hs
      have hnil : s = [] := List.length_eq_zero.mp (Nat.le_zero.mp hs)
      subst hnil
      simp [replaceAllAux, splitOnAux, List.intercalate]
  | succ n ih =>
      intro s hs
      cases s with
      | nil => simp [replaceAllAux, splitOnAux, List.intercalate]
      | cons c rest =>
          have hp1 : 1 ≤ pat.length := List.length_pos.mpr hpat
          by_cases hpre : pat.isPrefixOf (c :: rest)
          · have hlen : ((c :: rest).drop pat.length).length ≤ n := by
              simp only [List.length_drop, List.length_cons]
              simp only [List.length_cons] at hs
              omega
            obtain ⟨b, m, hbm⟩ :
                ∃ b m, splitOnAux pat n ((c :: rest).drop pat.length) = b :: m := by
              cases hx : splitOnAux pat n ((c :: rest).drop pat.length) with
              | nil => exact absurd hx (splitOnAux_ne_nil pat n _)
              | cons b m => exact ⟨b, m, rfl⟩
            simp only [replaceAllAux, splitOnAux, if_pos hpre]
            rw [hbm, intercalate_nil_head, ← hbm, ih _ hlen]
          · have hlen : rest.length ≤ n := by
              simp only [List.length_cons] at hs
              omega
            obtain ⟨b, m, hbm⟩ : ∃ b m, splitOnAux pat n rest = b :: m := by
              cases hx : splitOnAux pat n rest with
              | nil => exact absurd hx (splitOnAux_ne_nil pat n _)
              | cons b m => exact ⟨b, m, rfl⟩
            simp only [replaceAllAux, splitOnAux, if_neg hpre]
            rw [hbm, intercalate_cons_head, ← hbm, ih _ hlen]

theorem replaceAll_eq_substituteSpec (s pat rep : String) (hpat : pat.data ≠ []) :
    replaceAll s pat rep = substituteSpec s pat rep := by
  unfold replaceAll substituteSpec
  exact congrArg String.mk
    (replaceAllAux_eq_split pat.data rep.data hpat s.data.length s.data le_rfl)

/-! ### Health-probe loop characterization -/

theorem waitForHealthRun_spec_aux (probe : Nat → ProbeResult) :
    ∀ fuel i,
      ((waitForHealthRun probe fuel i).1 = none ↔
        ∀ j, i ≤ j → j < i + fuel → probe j ≠ ProbeResult.response 200) ∧
      (∀ k, (waitForHealthRun probe fuel i).1 = some k →
        i ≤ k ∧ k < i + fuel ∧ probe k = ProbeResult.response 200 ∧
        ∀ j, i ≤ j → j < k → probe j ≠ ProbeResult.response 200) ∧
      (waitForHealthRun probe fuel i).2 =
        (List.range' i (match (waitForHealthRun probe fuel i).1 with
          | some k => k + 1 - i
          | none => fuel)).filter (fun j => (probe j).isResp) := by
  intro fuel
  induction fuel with
  | zero =>
      intro i
      refine ⟨?_, ?_, ?_⟩
      · simp only [waitForHealthRun]
        constructor
        · intro _ j h1 h2
          omega
        · intro _
          trivial
      · intro k hk
        simp only [waitForHealthRun] at hk
        cases hk
      · simp [waitForHealthRun]
  | succ n ih =>
      intro i
      cases hp : probe i with
      | transportError =>
          have hstep : waitForHealthRun probe (n + 1) i = waitForHealthRun probe n (i + 1) := by
            simp [waitForHealthRun, hp]
          have hi := ih (i + 1)
          refine ⟨?_, ?_, ?_⟩
          · rw [hstep, hi.1]
            constructor
            · intro hall j h1 h2
              rcases Nat.eq_or_lt_of_le h1 with heq | hlt
              · subst heq
                simp [hp]
              · exact hall j hlt (by omega)
            · intro hall j h1 h2
              exact hall j (by omega) (by omega)
          · intro k hk
            rw [hstep] at hk
            obtain ⟨hk1, hk2, hk3, hk4⟩ := hi.2.1 k hk
            refine ⟨by omega, by omega, hk3, ?_⟩
            intro j h1 h2
            rcases Nat.eq_or_lt_of_le h1 with heq | hlt
            · subst heq
              simp [hp]
            · exact hk4 j hlt h2
          · rw [hstep, hi.2.2]
            have hn : (match (waitForHealthRun probe n (i + 1)).1 with
                | some k => k + 1 - i
                | none => n + 1) =
                (match (waitForHealthRun probe n (i + 1)).1 with
                  | some k => k + 1 - (i + 1)
                  | none => n) + 1 := by
              cases hr : (waitForHealthRun probe n (i + 1)).1 with
              | none => rfl
              | some k =>
                  have := (hi.2.1 k hr).1
                  show k + 1 - i = k + 1 - (i + 1) + 1
                  omega
            rw [hn, List.range'_succ, List.filter_cons]
            simp [hp, ProbeResult.isResp]
      | response code =>
          by_cases hc : code = 200
          · subst hc
            have hstep : waitForHealthRun probe (n + 1) i = (some i, [i]) := by
              simp [waitForHealthRun, hp]
            refine ⟨?_, ?_, ?_⟩
            · rw [hstep]
              simp only
              constructor
              · intro h
                cases h
              · intro hall
                exact absurd hp (hall i le_rfl (by omega))
            · intro k hk
              rw [hstep] at hk
              cases hk
              exact ⟨le_rfl, by omega, hp, fun j h1 h2 => by omega⟩
            · rw [hstep]
              simp [ProbeResult.isResp, hp, List.range'_succ]
          · have hne : probe i ≠ ProbeResult.response 200 := by
              rw [hp]
              intro hcontra
              cases hcontra
              exact hc rfl
            have hstep : waitForHealthRun probe (n + 1) i =
                ((waitForHealthRun probe n (i + 1)).1,
                 i :: (waitForHealthRun probe n (i + 1)).2) := by
              simp [waitForHealthRun, hp, hc]
            have hi := ih (i + 1)
            refine ⟨?_, ?_, ?_⟩
            · rw [hstep]
              simp only
              rw [hi.1]
              constructor
              · intro hall j h1 h2
                rcases Nat.eq_or_lt_of_le h1 with heq | hlt
                · subst heq
                  exact hne
                · exact hall j hlt (by omega)
              · intro hall j h1 h2
                exact hall j (by omega) (by omega)
            · intro k hk
              rw [hstep] at hk
              simp only at hk
              obtain ⟨hk1, hk2, hk3, hk4⟩ := hi.2.1 k hk
              refine ⟨by omega, by omega, hk3, ?_⟩
              intro j h1 h2
              rcases Nat.eq_or_lt_of_le h1 with heq | hlt
              · subst heq
                exact hne
              · exact hk4 j hlt h2
            · rw [hstep]
              simp only
              rw [hi.2.2]
              have hn : (match (waitForHealthRun probe n (i + 1)).1 with
                  | some k => k + 1 - i
                  | none => n + 1) =
                  (match (waitForHealthRun probe n (i + 1)).1 with
                    | some k => k + 1 - (i + 1)
                    | none => n) + 1 := by
                cases hr : (waitForHealthRun probe n (i + 1)).1 with
                | none => rfl
                | some k =>
                    have := (hi.2.1 k hr).1
                    show k + 1 - i = k + 1 - (i + 1) + 1
                    omega
              rw [hn, List.range'_succ, List.filter_cons]
              simp [hp, ProbeResult.isResp]

/-! ### Claim theorems -/

/-- C1 (amended).  For every update run whose health probe never succeeds, the
run returns the health-check error, the just-spawned child is killed,
`current-id` is unchanged, no registration happens: the final state is exactly
the state slot selection produced.  The registry and backend set equal their
pre-trigger values whenever at least one slot was empty at trigger time; when
both slots were occupied they differ from pre-trigger exactly by the slot
`selectChildPort` freed before spawning. -/
theorem updateProcess_healthFail_isolation (env : UpdateEnv) (forced : Bool)
    (st : LiveRoll) (out : String)
    (hpull : env.pullOk = true) (hid : env.idOutput = some out)
    (hnoop : ¬(forced = false ∧ trimSpace out = st.currentID))
    (hz : ¬(selectChildPort st).1 = 0) (hsp : env.spawnOk = true)
    (hw : waitForHealth st.healthTimeout env.probes = none) :
    (updateProcess env forced st).2.2 = some UpdateError.healthFailed ∧
    (updateProcess env forced st).1 = (selectChildPort st).2.1 ∧
    (updateProcess env forced st).1.currentID = st.currentID ∧
    Effect.kill (selectChildPort st).1 ∈ (updateProcess env forced st).2.1 ∧
    ((mapLookup st.childPort1 st.children = none ∨
      mapLookup st.childPort2 st.children = none) →
      (updateProcess env forced st).1 = st) := by
  have heq := updateProcess_healthFail_run hpull hid hnoop hz hsp hw
  rw [heq]
  refine ⟨rfl, rfl, (selectChildPort_fields st).2.2, by simp, ?_⟩
  intro hfree
  exact selectChildPort_free_state hfree

/-- C1 witness: a concrete health-failing run over a state with a free slot
leaves the whole state untouched and reports the health failure. -/
theorem updateProcess_healthFail_isolation_witness :
    (updateProcess envV2Unhealthy false stOne).2.2 = some UpdateError.healthFailed ∧
    (updateProcess envV2Unhealthy false stOne).1 = stOne := by
  have h := updateProcess_healthFail_isolation envV2Unhealthy false stOne "v2\n"
    rfl rfl (by decide) (by decide) rfl (by decide)
  exact ⟨h.1, h.2.2.2.2 (Or.inr (by decide))⟩

/-- C1 counterexample to the claim as stated: starting from a pre-trigger
state with both slots occupied (reached by a forced same-id update), a run
whose health probe never succeeds returns the health error but leaves the
registry and the backend set different from their pre-trigger values — slot
selection already freed port 9101 before the spawn. -/
theorem updateProcess_healthFail_cex :
    waitForHealth stBothSlots.healthTimeout envV2Unhealthy.probes = none ∧
    (updateProcess envV2Unhealthy false stBothSlots).2.2 =
      some UpdateError.healthFailed ∧
    (updateProcess envV2Unhealthy false stBothSlots).1.children ≠
      stBothSlots.children ∧
    (updateProcess envV2Unhealthy false stBothSlots).1.backendURLs ≠
      stBothSlots.backendURLs := by
  exact ⟨by decide, by decide, by decide, by decide⟩

/-- C2 (the claim's enqueue half fails on the code).  The exit-monitor
goroutine started by `startChildProcess` removes the exited child from the
registry and from the backend set, but enqueues no update trigger at all —
its trigger list is always empty, so no `forced=false` respawn run follows a
child exit. -/
theorem reapChild_enqueues_no_trigger (port : Nat) (st : LiveRoll) :
    (reapChild port st).2 = [] ∧
    (reapChild port st).1 =
      removeBackendByPort port { st with children := mapErase port st.children } :=
  ⟨rfl, rfl⟩

/-- C3.  `selectChildPort` implements exactly the claimed algorithm: empty
port1 first, then empty port2, then free the first slot (port1 before port2)
whose child id differs from `current-id`, else free port1; freeing kills the
child and removes it from registry and backend set; and the returned port is
always empty in the registry of the returned state. -/
theorem selectChildPort_algorithm (st : LiveRoll) :
    (mapLookup st.childPort1 st.children = none →
      selectChildPort st = (st.childPort1, st, [])) ∧
    (∀ c1, mapLookup st.childPort1 st.children = some c1 →
      mapLookup st.childPort2 st.children = none →
      selectChildPort st = (st.childPort2, st, [])) ∧
    (∀ c1 c2, mapLookup st.childPort1 st.children = some c1 →
      mapLookup st.childPort2 st.children = some c2 →
      c1.id ≠ st.currentID →
      selectChildPort st =
        (st.childPort1, freeSlot st.childPort1 st, [Effect.kill st.childPort1])) ∧
    (∀ c1 c2, mapLookup st.childPort1 st.children = some c1 →
      mapLookup st.childPort2 st.children = some c2 →
      c1.id = st.currentID → c2.id ≠ st.currentID →
      selectChildPort st =
        (st.childPort2, freeSlot st.childPort2 st, [Effect.kill st.childPort2])) ∧
    (∀ c1 c2, mapLookup st.childPort1 st.children = some c1 →
      mapLookup st.childPort2 st.children = some c2 →
      c1.id = st.currentID → c2.id = st.currentID →
      selectChildPort st =
        (st.childPort1, freeSlot st.childPort1 st, [Effect.kill st.childPort1])) ∧
    mapLookup (selectChildPort st).1 (selectChildPort st).2.1.children = none := by
  refine ⟨?_, ?_, ?_, ?_, ?_, ?_⟩
  · intro h1
    unfold selectChildPort
    rw [h1]
  · intro c1 h1 h2
    unfold selectChildPort
    rw [h1, h2]
  · intro c1 c2 h1 h2 hne
    unfold selectChildPort
    rw [h1, h2]
    simp [hne]
  · intro c1 c2 h1 h2 he1 hne2
    unfold selectChildPort
    rw [h1, h2]
    simp [he1, hne2]
  · intro c1 c2 h1 h2 he1 he2
    unfold selectChildPort
    rw [h1, h2]
    simp [he1, he2]
  · unfold selectChildPort
    cases h1 : mapLookup st.childPort1 st.children with
    | none => exact h1
    | some c1 =>
        cases h2 : mapLookup st.childPort2 st.children with
        | none => exact h2
        | some c2 =>
            by_cases hne : c1.id ≠ st.currentID
            · simp only [if_pos hne]
              show mapLookup st.childPort1 (freeSlot st.childPort1 st).children = none
              rw [(freeSlot_fields st.childPort1 st).1]
              exact mapLookup_mapErase_self _ _
            · by_cases hne2 : c2.id ≠ st.currentID
              · simp only [if_neg hne, if_pos hne2]
                show mapLookup st.childPort2 (freeSlot st.childPort2 st).children = none
                rw [(freeSlot_fields st.childPort2 st).1]
                exact mapLookup_mapErase_self _ _
              · simp only [if_neg hne, if_neg hne2]
                show mapLookup st.childPort1 (freeSlot st.childPort1 st).children = none
                rw [(freeSlot_fields st.childPort1 st).1]
                exact mapLookup_mapErase_self _ _

/-- C3 witness: on the fresh supervisor both slots are empty, so slot
selection returns port1 with the state untouched, and that port is empty in
the returned registry. -/
theorem selectChildPort_algorithm_witness :
    selectChildPort stInit = (9101, stInit, []) ∧
    mapLookup (selectChildPort stInit).1 (selectChildPort stInit).2.1.children = none :=
  ⟨(selectChildPort_algorithm stInit).1 (by decide),
   (selectChildPort_algorithm stInit).2.2.2.2.2⟩

/-- C4 (the escalation half fails on the code).  At a state with one
registered child whose process never exits (every non-blocking `Wait4`
returns pid 0, meaning unexited children remain), `shutdown` sends SIGTERM,
but its wait loop returns "all exited" after a single `Wait4` call — it does
not keep polling for the ≈30 s bound and never sends SIGKILL.  The draining
parts of the claim do hold: the flag is set and later triggers are dropped. -/
theorem shutdown_stuck_child_no_sigkill :
    waitAllChildrenAux wait4Stuck 300 0 = (true, 1) ∧
    (shutdown wait4Stuck stOne).2 = [Effect.term 9101] ∧
    (shutdown wait4Stuck stOne).1.inShutdownProcess = true ∧
    triggerUpdate true (shutdown wait4Stuck stOne).1 = [] ∧
    triggerUpdate false (shutdown wait4Stuck stOne).1 = [] := by
  exact ⟨by decide, by decide, by decide, by decide, by decide⟩

/-- C5.  A `forced=false` run whose trimmed id output equals the current id
is a success no-op; hence after any successful `forced=false` run, a second
`forced=false` run with the same id output returns success, changes nothing,
runs the pull command exactly once and spawns nothing. -/
theorem updateProcess_noop_second_run (env1 env2 : UpdateEnv) (st : LiveRoll)
    (out : String)
    (_h1pull : env1.pullOk = true) (h1id : env1.idOutput = some out)
    (h1ok : (updateProcess env1 false st).2.2 = none)
    (h2pull : env2.pullOk = true) (h2id : env2.idOutput = some out) :
    updateProcess env2 false (updateProcess env1 false st).1 =
      ((updateProcess env1 false st).1,
       [Effect.runPull (updateProcess env1 false st).1.pullCmdStr,
        Effect.runId (updateProcess env1 false st).1.idCmdStr], none) ∧
    (updateProcess env2 false (updateProcess env1 false st).1).2.1.countP
      Effect.isPull = 1 ∧
    (updateProcess env2 false (updateProcess env1 false st).1).2.1.countP
      Effect.isSpawn = 0 := by
  have hcur : (updateProcess env1 false st).1.currentID = trimSpace out :=
    updateProcess_ok_currentID h1id h1ok
  have hmain := @updateProcess_noop_eq env2 ((updateProcess env1 false st).1) out
    h2pull h2id hcur.symm
  refine ⟨hmain, ?_, ?_⟩ <;> rw [hmain]
  · rfl
  · rfl

/-- C5 witness: a concrete first run installs "v1"; the second run with the
same id output is the success no-op with exactly the pull and id effects. -/
theorem updateProcess_noop_second_run_witness :
    (updateProcess envV1 false stInit).2.2 = none ∧
    updateProcess envV1 false (updateProcess envV1 false stInit).1 =
      ((updateProcess envV1 false stInit).1,
       [Effect.runPull (updateProcess envV1 false stInit).1.pullCmdStr,
        Effect.runId (updateProcess envV1 false stInit).1.idCmdStr], none) :=
  ⟨by decide,
   (updateProcess_noop_second_run envV1 envV1 stInit "v1\n"
      rfl rfl (by decide) rfl rfl).1⟩

/-- C6.  The health prober succeeds exactly at the first probe answering
status 200 within the timeout window (any transport error or non-200 response
is retried), reports the timeout error exactly when no probe within the
window answers 200, and the drained response bodies are exactly the responses
received up to and including the stopping probe.  (Each loop iteration of the
source takes one second — the probe plus the 1 s sleep — so probe `i` runs at
`i` seconds and the wall-clock deadline admits probes `i < timeout`.) -/
theorem waitForHealth_spec (timeout : Nat) (probe : Nat → ProbeResult) :
    (∀ k, waitForHealth timeout probe = some k →
      k < timeout ∧ probe k = ProbeResult.response 200 ∧
      ∀ j, j < k → probe j ≠ ProbeResult.response 200) ∧
    (waitForHealth timeout probe = none ↔
      ∀ j, j < timeout → probe j ≠ ProbeResult.response 200) ∧
    (waitForHealthRun probe timeout 0).2 =
      (List.range' 0 (match waitForHealth timeout probe with
        | some k => k + 1
        | none => timeout)).filter (fun j => (probe j).isResp) := by
  have h := waitForHealthRun_spec_aux probe timeout 0
  refine ⟨?_, ?_, ?_⟩
  · intro k hk
    obtain ⟨h1, h2, h3, h4⟩ := h.2.1 k hk
    exact ⟨by omega, h3, fun j hj => h4 j (Nat.zero_le j) hj⟩
  · refine Iff.trans h.1 ?_
    constructor
    · intro ha j hj
      exact ha j (Nat.zero_le j) (by omega)
    · intro ha j h0 hj
      exact ha j (by omega)
  · exact h.2.2

/-- C6 witness: with a transport error at probe 0 and a 200 at probe 1, the
prober succeeds at index 1 inside a 5-second window. -/
theorem waitForHealth_spec_witness :
    probeW 1 = ProbeResult.response 200 ∧ 1 < 5 := by
  have h := (waitForHealth_spec 5 probeW).1 1 (by decide)
  exact ⟨h.2.1, h.1⟩

/-- C7.  From any well-formed state, after any finite sequence of update runs
and reaper steps every registry key is one of the two slot ports and the
registry holds at most two children; the intra-run mutation points (the state
slot selection hands on, and the state after stale retirement) are well-formed
as well. -/
theorem registry_slot_invariant (st : LiveRoll) (steps : List Step)
    (h : RegistryWF st) :
    (∀ p ∈ keys (applySteps st steps).children,
      p = (applySteps st steps).childPort1 ∨ p = (applySteps st steps).childPort2) ∧
    (applySteps st steps).children.length ≤ 2 ∧
    RegistryWF (selectChildPort st).2.1 ∧
    (∀ newID newPort, RegistryWF (removeStaleChildren newID newPort st).1) := by
  have hwf := applySteps_wf steps h
  exact ⟨hwf.1, childrenOK_length_le_two hwf, selectChildPort_wf h,
    fun newID newPort => (removeStaleChildren_preserves newID newPort h).1⟩

/-- C7 witness: the fresh supervisor is well-formed, and after a concrete
trigger followed by a reap the registry still has at most two children. -/
theorem registry_slot_invariant_witness :
    RegistryWF stInit ∧
    (applySteps stInit [Step.trigger envV1 true, Step.reap 9101]).children.length ≤ 2 :=
  have hwf : RegistryWF stInit := ⟨by decide, by decide⟩
  ⟨hwf,
   (registry_slot_invariant stInit [Step.trigger envV1 true, Step.reap 9101]
      hwf).2.1⟩

/-- C8.  Slot selection always returns one of the two configured child ports;
when neither configured port is 0 (as with the defaults 9101/9102) the
returned port is never 0 and no update run can return the defensive `NoSlot`
error. -/
theorem selectChildPort_never_noSlot (st : LiveRoll)
    (h1 : st.childPort1 ≠ 0) (h2 : st.childPort2 ≠ 0) :
    ((selectChildPort st).1 = st.childPort1 ∨ (selectChildPort st).1 = st.childPort2) ∧
    (selectChildPort st).1 ≠ 0 ∧
    ∀ env forced, (updateProcess env forced st).2.2 ≠ some UpdateError.noSlot := by
  have hz : (selectChildPort st).1 ≠ 0 := by
    rcases selectChildPort_port_cases st with h | h <;> rw [h] <;> assumption
  refine ⟨selectChildPort_port_cases st, hz, ?_⟩
  intro env forced
  unfold updateProcess
  by_cases hpull : env.pullOk = false
  · simp [hpull]
  simp only [if_neg hpull]
  cases env.idOutput with
  | none => simp
  | some out =>
      simp only
      by_cases hnoop : forced = false ∧ trimSpace out = st.currentID
      · simp [hnoop]
      simp only [if_neg hnoop]
      simp only [if_neg hz]
      by_cases hsp : env.spawnOk = false
      · simp [hsp]
      simp only [if_neg hsp]
      cases waitForHealth st.healthTimeout env.probes <;> simp

/-- C8 witness: with the default ports the selected port is nonzero, and a
concrete run does not return `NoSlot`. -/
theorem selectChildPort_never_noSlot_witness :
    (selectChildPort stInit).1 ≠ 0 ∧
    (updateProcess envV1 true stInit).2.2 ≠ some UpdateError.noSlot := by
  have h := selectChildPort_never_noSlot stInit (by decide) (by decide)
  exact ⟨h.2.1, h.2.2 envV1 true⟩

/-- C9.  The argv launched for a child is `sh -c` applied to the `--exec`
template with every occurrence of `<<PORT>>` replaced by the decimal port and
then every occurrence of `<<HEALTHCHECK>>` replaced by the raw healthcheck
path (stated through the independent split-and-join rendering of "replace all
occurrences"), and the substitution touches only the exec command: every
update run executes the pull command string verbatim. -/
theorem startChildProcess_template (st : LiveRoll) (port : Nat) (newID : String) :
    (startChildProcess st port newID).2 =
      shellArgv (substituteSpec
        (substituteSpec st.execCmdStr portTemplate (Nat.repr port))
        healthTemplate st.healthcheckPath) ∧
    (∀ env forced,
      ((updateProcess env forced st).2.1).head? =
        some (Effect.runPull st.pullCmdStr)) := by
  constructor
  · unfold startChildProcess
    simp only
    rw [replaceAll_eq_substituteSpec _ healthTemplate _ (by decide),
        replaceAll_eq_substituteSpec _ portTemplate _ (by decide)]
  · intro env forced
    unfold updateProcess
    by_cases hpull : env.pullOk = false
    · simp [hpull]
    simp only [if_neg hpull]
    cases env.idOutput with
    | none => simp
    | some out =>
        simp only
        by_cases hnoop : forced = false ∧ trimSpace out = st.currentID
        · simp [hnoop]
        simp only [if_neg hnoop]
        by_cases hz : (selectChildPort st).1 = 0
        · simp [hz]
        simp only [if_neg hz]
        by_cases hsp : env.spawnOk = false
        · simp [hsp]
        simp only [if_neg hsp]
        cases waitForHealth st.healthTimeout env.probes <;> simp

/-- C10.  `removeBackendByPort` on an absent port changes nothing (neither
the port map nor the load balancer) and reports nothing, and removing the
same port twice equals removing it once. -/
theorem removeBackendByPort_idempotent (port : Nat) (st : LiveRoll) :
    (mapLookup port st.backendURLs = none → removeBackendByPort port st = st) ∧
    removeBackendByPort port (removeBackendByPort port st) =
      removeBackendByPort port st := by
  constructor
  · intro h
    unfold removeBackendByPort
    rw [h]
  · cases h : mapLookup port st.backendURLs with
    | none =>
        have e : removeBackendByPort port st = st := by
          unfold removeBackendByPort
          rw [h]
        rw [e, e]
    | some u =>
        have e1 : removeBackendByPort port st =
            { st with
              lb := st.lb.erase u
              backendURLs := mapErase port st.backendURLs } := by
          unfold removeBackendByPort
          rw [h]
        rw [e1]
        unfold removeBackendByPort
        simp [mapLookup_mapErase_self]

/-- C10 witness: removing a port that is not in the backend map of a concrete
state leaves the state unchanged. -/
theorem removeBackendByPort_idempotent_witness :
    removeBackendByPort 9103 stOne = stOne :=
  (removeBackendByPort_idempotent 9103 stOne).1 (by decide)

end Liveroll
